import Mathlib

/-! The `acl token update` command of Nomad.

A shallow embedding of `command/acl_token_update.go`: the method
`ACLTokenUpdateCommand.Run` with the closures it registers on its flag set,
the fetch / overwrite / update sequence it performs on the ACL token store,
and the exit status it returns.

The command's collaborators that the file only calls (the flag parser with
the options of the embedded `Meta`, the API client, the help text, the output
formatter, the role link builder) are fields of an environment `Env`, so the
theorems hold for every behaviour they may have.  What `Run` does to the
terminal and to the store is recorded as a list of `Event`s.
-/

namespace Nomad.Command

/-! ## Data model -/

/-- Modelled from the spec: the declaration of `api.ACLTokenRoleLink` is not
part of the source file.  A role reference is a link by identifier or by
name; the field that is not used is the empty string. -/
structure ACLTokenRoleLink where
  ID : String
  Name : String
deriving DecidableEq, Repr

/-- Modelled from the spec: the declaration of `api.ACLToken` is not part of
the source file.  The six fields of the spec's data model, and `Rest` for
every further field of the record (none of which `Run` reads or writes). -/
structure ACLToken where
  AccessorID : String
  SecretID : String
  Name : String
  /-- The field `Type` of the record (a reserved word here). -/
  Type_ : String
  Policies : List String
  Roles : List ACLTokenRoleLink
  Rest : String
deriving DecidableEq, Repr

/-- The command value (source lines 13-18).  The embedded `Meta` is
represented by the environment; `roleNames` and `roleIDs` are the two fields
the command itself declares. -/
structure ACLTokenUpdateCommand where
  roleNames : List String
  roleIDs : List String
deriving DecidableEq, Repr

/-- A call that `flags.Parse` makes into a closure registered on the flag set
by `Run`: the setters of `-name`, `-type`, `-policy`, `-role-name` and
`-role-id` (lines 83-96), `flags.Usage` (line 82), and the setter of an
option registered by `c.Meta.FlagSet` (line 81). -/
inductive FlagCall where
  | name (s : String)
  | tokenType (s : String)
  | policy (s : String)
  | roleName (s : String)
  | roleID (s : String)
  | usage
  | general (flag value : String)
deriving DecidableEq, Repr

/-- The outcome of `flags.Parse(args)`: the calls it made, in order, and
either the error it returned or the remaining arguments `flags.Args()`.  The
calls made before an error are part of the outcome: their effect stays. -/
structure Parsed where
  calls : List FlagCall
  result : Except String (List String)

/-- The variables the registered setters write: the locals `name`,
`tokenType`, `policies` of `Run` and the fields `c.roleNames`, `c.roleIDs`. -/
structure Flags where
  name : String
  tokenType : String
  policies : List String
  roleNames : List String
  roleIDs : List String
deriving DecidableEq, Repr

deriving instance DecidableEq for Except

/-- The ACL token endpoints of the API client, `client.ACLTokens()`: each call
returns an error (its text) or, with no error, a token. -/
structure ACLTokens where
  Info : String → Except String ACLToken
  Update : ACLToken → Except String ACLToken

/-- Everything `Run` calls and this file does not define. -/
structure Env where
  /-- The call `flags.Parse` on the flag set of line 81. -/
  Parse : List String → Parsed
  /-- The call `c.Meta.Client()`. -/
  Client : Except String ACLTokens
  /-- The text of `c.Help()`. -/
  Help : String
  /-- The text of `commandErrorText(c)`. -/
  commandErrorText : String
  /-- The function `generateACLTokenRoleLinks`. -/
  generateACLTokenRoleLinks : List String → List String → List ACLTokenRoleLink

/-- An effect of `Run` that is visible outside it. -/
inductive Event where
  | uiOutput (s : String)
  | uiError (s : String)
  | info (tokenAccessorID : String)
  | update (token : ACLToken)
  | outputACLToken (token : ACLToken)
deriving DecidableEq, Repr

/-- What a call of `Run` leaves behind: the command value after the call, the
returned status, and the events in the order they happened. -/
structure RunResult where
  cmd : ACLTokenUpdateCommand
  code : Int
  trace : List Event
deriving DecidableEq, Repr

/-! ## The code of `Run` -/

/-- One call into a registered closure (lines 82-96): `-name` and `-type`
store the value, `-policy`, `-role-name` and `-role-id` append it. -/
def applyFlag (st : Flags) : FlagCall → Flags
  | .name s => { st with name := s }
  | .tokenType s => { st with tokenType := s }
  | .policy s => { st with policies := st.policies ++ [s] }
  | .roleName s => { st with roleNames := st.roleNames ++ [s] }
  | .roleID s => { st with roleIDs := st.roleIDs ++ [s] }
  | .usage => st
  | .general _ _ => st

/-- The variables at line 79-81, before parsing: the locals are fresh, the two
role lists are whatever the command value holds. -/
def initialFlags (c : ACLTokenUpdateCommand) : Flags :=
  { name := "", tokenType := "", policies := [],
    roleNames := c.roleNames, roleIDs := c.roleIDs }

/-- The variables after `flags.Parse(args)` (line 97). -/
def parsedFlags (env : Env) (c : ACLTokenUpdateCommand) (args : List String) : Flags :=
  (env.Parse args).calls.foldl applyFlag (initialFlags c)

/-- The output of the `flags.Usage` closure, once per call of it. -/
def usageOutput (env : Env) : List FlagCall → List Event
  | [] => []
  | .usage :: rest => .uiOutput env.Help :: usageOutput env rest
  | _ :: rest => usageOutput env rest

/-- Lines 125-140: the fetched token with the supplied values written over
it. -/
def updatedFields (env : Env) (st : Flags) (token : ACLToken) : ACLToken :=
  let token := if st.name ≠ "" then { token with Name := st.name } else token
  let token := if st.tokenType ≠ "" then { token with Type_ := st.tokenType } else token
  let token := if st.policies.length ≠ 0 then { token with Policies := st.policies } else token
  let token :=
    if st.roleNames.length ≠ 0 ∨ st.roleIDs.length ≠ 0 then
      { token with Roles := env.generateACLTokenRoleLinks st.roleNames st.roleIDs }
    else token
  token

/-- The method `Run` (lines 78-152).  The argument count test of line 103 and
the read of `args[0]` at line 109 are the match on a one element list. -/
def Run (env : Env) (c : ACLTokenUpdateCommand) (args : List String) : RunResult :=
  let st := parsedFlags env c args
  let c' : ACLTokenUpdateCommand := { roleNames := st.roleNames, roleIDs := st.roleIDs }
  let shown := usageOutput env (env.Parse args).calls
  match (env.Parse args).result with
  | .error _ => ⟨c', 1, shown⟩
  | .ok [tokenAccessorID] =>
    match env.Client with
    | .error err => ⟨c', 1, shown ++ [.uiError ("Error initializing client: " ++ err)]⟩
    | .ok client =>
      match client.Info tokenAccessorID with
      | .error err =>
        ⟨c', 1, shown ++ [.info tokenAccessorID, .uiError ("Error fetching token: " ++ err)]⟩
      | .ok token =>
        let token := updatedFields env st token
        match client.Update token with
        | .error err =>
          ⟨c', 1, shown ++ [.info tokenAccessorID, .update token,
                            .uiError ("Error updating token: " ++ err)]⟩
        | .ok updatedToken =>
          ⟨c', 0, shown ++ [.info tokenAccessorID, .update token,
                            .outputACLToken updatedToken]⟩
  | .ok _ =>
    ⟨c', 1, shown ++ [.uiError "This command takes one argument: <token_accessor_id>",
                      .uiError env.commandErrorText]⟩

/-! ## Observations of a run -/

/-- The accessor IDs passed to `Info`, in order. -/
def fetches : List Event → List String
  | [] => []
  | .info a :: rest => a :: fetches rest
  | _ :: rest => fetches rest

/-- The records passed to `Update`, in order. -/
def submitted : List Event → List ACLToken
  | [] => []
  | .update t :: rest => t :: submitted rest
  | _ :: rest => submitted rest

/-- The tokens passed to `outputACLToken`, in order. -/
def displayed : List Event → List ACLToken
  | [] => []
  | .outputACLToken t :: rest => t :: displayed rest
  | _ :: rest => displayed rest

/-- The calls to the store, `Info` and `Update`, in order. -/
def storeCalls : List Event → List Event
  | [] => []
  | .info a :: rest => .info a :: storeCalls rest
  | .update t :: rest => .update t :: storeCalls rest
  | _ :: rest => storeCalls rest

/-- The values given to `-role-name` in one parse, in order. -/
def roleNameValues : List FlagCall → List String
  | [] => []
  | .roleName s :: rest => s :: roleNameValues rest
  | _ :: rest => roleNameValues rest

/-- The values given to `-role-id` in one parse, in order. -/
def roleIDValues : List FlagCall → List String
  | [] => []
  | .roleID s :: rest => s :: roleIDValues rest
  | _ :: rest => roleIDValues rest

/-! ## The collaborators, for concrete runs

The theorems below quantify over every `Env`.  The definitions of this
section give one environment on which runs can be evaluated: the argument
syntax of Go's `flag.FlagSet.Parse` for the five options `Run` registers,
and the role link builder as the spec describes it. -/

/-- Modelled from the spec: `generateACLTokenRoleLinks` is called at line 139
and defined outside the source file.  One reference entry per name and one
per ID, each tagged by the field it fills, without deduplication. -/
def generateACLTokenRoleLinks (roleNames roleIDs : List String) : List ACLTokenRoleLink :=
  roleNames.map (fun n => { ID := "", Name := n }) ++
    roleIDs.map (fun i => { ID := i, Name := "" })

/-- The shape of one command line argument as `flag.FlagSet.parseOne` reads
it. -/
inductive ArgShape where
  | positional
  | terminator
  | bad
  | flag (name : String) (value : Option String)
deriving DecidableEq, Repr

/-- Split `name=value` at the first equals sign. -/
def splitEq : List Char → List Char × Option (List Char)
  | [] => ([], none)
  | ch :: t =>
    if ch = '=' then ([], some t)
    else ((ch :: (splitEq t).1), (splitEq t).2)

/-- The reading of one argument: shorter than two characters or not starting
with a dash, it is positional; `--` ends the options; one or two dashes
followed by a dash, an equals sign or nothing is bad syntax; otherwise an
option name with the value after an equals sign, if there is one. -/
def argShape (s : String) : ArgShape :=
  match s.data with
  | '-' :: '-' :: [] => .terminator
  | '-' :: c :: t =>
    match (if c = '-' then t else c :: t) with
    | [] => .bad
    | d :: t' =>
      if d = '-' ∨ d = '=' then .bad
      else .flag (String.mk (splitEq (d :: t')).1) ((splitEq (d :: t')).2.map String.mk)
  | _ => .positional

/-- The setter registered under an option name by lines 83-96; `none` for a
name `Run` does not register. -/
def registered : String → Option (String → FlagCall)
  | "name" => some .name
  | "type" => some .tokenType
  | "policy" => some .policy
  | "role-name" => some .roleName
  | "role-id" => some .roleID
  | _ => none

/-- The loop of `flag.FlagSet.Parse` over the options of lines 83-96 (none
takes a boolean, so each needs a value: the text after the equals sign or
else the next argument).  `pending` is an option still waiting for its
value.  Every failure calls `flags.Usage` and returns the error. -/
def parseArgs : Option (String × (String → FlagCall)) → List String → Parsed
  | none, [] => ⟨[], .ok []⟩
  | some (n, _), [] => ⟨[.usage], .error ("flag needs an argument: -" ++ n)⟩
  | some (_, set), v :: rest =>
    ⟨set v :: (parseArgs none rest).calls, (parseArgs none rest).result⟩
  | none, s :: rest =>
    match argShape s with
    | .positional => ⟨[], .ok (s :: rest)⟩
    | .terminator => ⟨[], .ok rest⟩
    | .bad => ⟨[.usage], .error ("bad flag syntax: " ++ s)⟩
    | .flag n value =>
      match registered n with
      | none =>
        if n = "help" ∨ n = "h" then ⟨[.usage], .error "flag: help requested"⟩
        else ⟨[.usage], .error ("flag provided but not defined: -" ++ n)⟩
      | some set =>
        match value with
        | some v => ⟨set v :: (parseArgs none rest).calls, (parseArgs none rest).result⟩
        | none => parseArgs (some (n, set)) rest

/-- The token the sample store holds under the accessor ID `a1`. -/
def sampleToken : ACLToken :=
  { AccessorID := "a1", SecretID := "s1", Name := "ci", Type_ := "client",
    Policies := ["p1"], Roles := [{ ID := "r0", Name := "" }], Rest := "index=7" }

/-- A store with one token: `Info` knows only `a1`; `Update` accepts client
and management tokens and returns the record with a new modify index. -/
def sampleStore : ACLTokens :=
  { Info := fun a => if a = "a1" then .ok sampleToken else .error "ACL token not found",
    Update := fun t =>
      if t.Type_ = "client" ∨ t.Type_ = "management" then .ok { t with Rest := "index=8" }
      else .error "token type must be client or management" }

/-- An environment in which every collaborator works. -/
def sampleEnv : Env :=
  { Parse := parseArgs none,
    Client := .ok sampleStore,
    Help := "Usage: nomad acl token update <token_accessor_id>",
    commandErrorText := "For additional help try the -help option",
    generateACLTokenRoleLinks := generateACLTokenRoleLinks }

/-- An environment whose client cannot be built. -/
def noClientEnv : Env :=
  { sampleEnv with Client := .error "invalid address" }

/-- A command value as the command factory builds it: no role collected. -/
def newCommand : ACLTokenUpdateCommand :=
  { roleNames := [], roleIDs := [] }

/-! ## Lemmas on traces -/

theorem fetches_append (l₁ l₂ : List Event) :
    fetches (l₁ ++ l₂) = fetches l₁ ++ fetches l₂ := by
  induction l₁ with
  | nil => rfl
  | cons e l ih => cases e <;> simp [fetches, ih]

theorem submitted_append (l₁ l₂ : List Event) :
    submitted (l₁ ++ l₂) = submitted l₁ ++ submitted l₂ := by
  induction l₁ with
  | nil => rfl
  | cons e l ih => cases e <;> simp [submitted, ih]

theorem displayed_append (l₁ l₂ : List Event) :
    displayed (l₁ ++ l₂) = displayed l₁ ++ displayed l₂ := by
  induction l₁ with
  | nil => rfl
  | cons e l ih => cases e <;> simp [displayed, ih]

theorem fetches_usageOutput (env : Env) (cs : List FlagCall) :
    fetches (usageOutput env cs) = [] := by
  induction cs with
  | nil => rfl
  | cons k l ih => cases k <;> simp [usageOutput, fetches, ih]

theorem submitted_usageOutput (env : Env) (cs : List FlagCall) :
    submitted (usageOutput env cs) = [] := by
  induction cs with
  | nil => rfl
  | cons k l ih => cases k <;> simp [usageOutput, submitted, ih]

theorem displayed_usageOutput (env : Env) (cs : List FlagCall) :
    displayed (usageOutput env cs) = [] := by
  induction cs with
  | nil => rfl
  | cons k l ih => cases k <;> simp [usageOutput, displayed, ih]

/-- The run in which parsing, the argument check, the client and the fetch
all succeed: the status and the trace are decided by the answer of `Update`
to the overwritten record. -/
theorem Run_of_fetch (env : Env) (c : ACLTokenUpdateCommand) (args : List String)
    (a : String) (store : ACLTokens) (T : ACLToken)
    (hparse : (env.Parse args).result = .ok [a])
    (hclient : env.Client = .ok store) (hfetch : store.Info a = .ok T) :
    (Run env c args).trace =
        usageOutput env (env.Parse args).calls ++
          [.info a, .update (updatedFields env (parsedFlags env c args) T),
           match store.Update (updatedFields env (parsedFlags env c args) T) with
           | .error err => .uiError ("Error updating token: " ++ err)
           | .ok updatedToken => .outputACLToken updatedToken] ∧
      (Run env c args).code =
        match store.Update (updatedFields env (parsedFlags env c args) T) with
        | .error _ => 1
        | .ok _ => 0 := by
  simp only [Run, hparse, hclient, hfetch]
  cases store.Update (updatedFields env (parsedFlags env c args) T) <;> simp

/-- The record submitted by a run whose fetch succeeds is the fetched token
with lines 125-140 applied, and it is submitted once. -/
theorem submitted_of_fetch (env : Env) (c : ACLTokenUpdateCommand) (args : List String)
    (a : String) (store : ACLTokens) (T : ACLToken)
    (hparse : (env.Parse args).result = .ok [a])
    (hclient : env.Client = .ok store) (hfetch : store.Info a = .ok T) :
    submitted (Run env c args).trace = [updatedFields env (parsedFlags env c args) T] := by
  rw [(Run_of_fetch env c args a store T hparse hclient hfetch).1, submitted_append,
    submitted_usageOutput]
  cases store.Update (updatedFields env (parsedFlags env c args) T) <;> simp [submitted]

/-! ## The submitted record -/

/-- C1: for every fetched token `T` and every set of supplied values `ov`
whose policy list is not empty, `Run` submits one record to the store and its
`Policies` are exactly `ov.policies`: the same elements in the same order,
whatever policies `T` had. -/
theorem policies_replaced (env : Env) (c : ACLTokenUpdateCommand) (args : List String)
    (a : String) (store : ACLTokens) (T : ACLToken) (ov : Flags)
    (hparse : (env.Parse args).result = .ok [a])
    (hclient : env.Client = .ok store) (hfetch : store.Info a = .ok T)
    (hov : parsedFlags env c args = ov) (hne : ov.policies ≠ []) :
    ∃ record, submitted (Run env c args).trace = [record] ∧
      record.Policies = ov.policies := by
  refine ⟨_, submitted_of_fetch env c args a store T hparse hclient hfetch, ?_⟩
  rw [hov]
  have h : ov.policies.length ≠ 0 := by simpa using hne
  simp only [updatedFields, h]
  split <;> simp

/-- C1 at the run `-policy=p2 -policy=p3 a1` of a new command on the sample
store, whose token has the policy `p1`. -/
theorem policies_replaced_witness :
    ∃ record,
      submitted (Run sampleEnv newCommand ["-policy=p2", "-policy=p3", "a1"]).trace = [record] ∧
      record.Policies = ["p2", "p3"] :=
  policies_replaced sampleEnv newCommand ["-policy=p2", "-policy=p3", "a1"] "a1" sampleStore
    sampleToken ⟨"", "", ["p2", "p3"], [], []⟩ (by decide) rfl (by decide) (by decide)
    (by decide)

/-- C2: for every fetched token `T` and every pair of role name and role ID
lists of which at least one is not empty, `Run` submits one record and its
`Roles` are `generateACLTokenRoleLinks` of exactly those two lists, whatever
roles `T` had. -/
theorem roles_replaced (env : Env) (c : ACLTokenUpdateCommand) (args : List String)
    (a : String) (store : ACLTokens) (T : ACLToken) (ov : Flags)
    (hparse : (env.Parse args).result = .ok [a])
    (hclient : env.Client = .ok store) (hfetch : store.Info a = .ok T)
    (hov : parsedFlags env c args = ov) (hne : ov.roleNames ≠ [] ∨ ov.roleIDs ≠ []) :
    ∃ record, submitted (Run env c args).trace = [record] ∧
      record.Roles = env.generateACLTokenRoleLinks ov.roleNames ov.roleIDs := by
  refine ⟨_, submitted_of_fetch env c args a store T hparse hclient hfetch, ?_⟩
  rw [hov]
  have h : ov.roleNames.length ≠ 0 ∨ ov.roleIDs.length ≠ 0 := by simpa using hne
  simp only [updatedFields, h]
  simp

/-- C2 at the run `-role-id=r7 a1` of a new command: a role ID alone replaces
the role `r0` of the sample token. -/
theorem roles_replaced_witness :
    ∃ record,
      submitted (Run sampleEnv newCommand ["-role-id=r7", "a1"]).trace = [record] ∧
      record.Roles = generateACLTokenRoleLinks [] ["r7"] :=
  roles_replaced sampleEnv newCommand ["-role-id=r7", "a1"] "a1" sampleStore
    sampleToken ⟨"", "", [], [], ["r7"]⟩ (by decide) rfl (by decide) (by decide)
    (Or.inr (by decide))

/-- C3: for every fetched token `T` and every set of supplied values `ov`, the
submitted record's `Name` is `ov.name` when that is not empty and `T.Name`
when it is; its `Type` is `ov.tokenType` when that is not empty, for any
string at all, and `T.Type` when it is. -/
theorem name_and_type_merged (env : Env) (c : ACLTokenUpdateCommand) (args : List String)
    (a : String) (store : ACLTokens) (T : ACLToken) (ov : Flags)
    (hparse : (env.Parse args).result = .ok [a])
    (hclient : env.Client = .ok store) (hfetch : store.Info a = .ok T)
    (hov : parsedFlags env c args = ov) :
    ∃ record, submitted (Run env c args).trace = [record] ∧
      (ov.name ≠ "" → record.Name = ov.name) ∧
      (ov.name = "" → record.Name = T.Name) ∧
      (ov.tokenType ≠ "" → record.Type_ = ov.tokenType) ∧
      (ov.tokenType = "" → record.Type_ = T.Type_) := by
  refine ⟨_, submitted_of_fetch env c args a store T hparse hclient hfetch, ?_⟩
  rw [hov]
  refine ⟨fun h => ?_, fun h => ?_, fun h => ?_, fun h => ?_⟩ <;>
    simp only [updatedFields, h] <;> repeat' split
  all_goals simp_all

/-- C3 at the run `-name=deploy -type=admin a1` of a new command: the name is
replaced and the type `admin`, which is neither client nor management, is
submitted as given. -/
theorem name_and_type_merged_witness :
    ∃ record,
      submitted (Run sampleEnv newCommand ["-name=deploy", "-type=admin", "a1"]).trace
        = [record] ∧
      ("deploy" ≠ "" → record.Name = "deploy") ∧
      ("deploy" = "" → record.Name = sampleToken.Name) ∧
      ("admin" ≠ "" → record.Type_ = "admin") ∧
      ("admin" = "" → record.Type_ = sampleToken.Type_) :=
  name_and_type_merged sampleEnv newCommand ["-name=deploy", "-type=admin", "a1"] "a1"
    sampleStore sampleToken ⟨"deploy", "admin", [], [], []⟩ (by decide) rfl (by decide)
    (by decide)

/-- C4: for every fetched token `T` and every set of supplied values in which
the policy list, the role name list and the role ID list are all empty, with
any name and type, the submitted record has the `Policies` and the `Roles` of
`T`. -/
theorem lists_kept (env : Env) (c : ACLTokenUpdateCommand) (args : List String)
    (a : String) (store : ACLTokens) (T : ACLToken) (ov : Flags)
    (hparse : (env.Parse args).result = .ok [a])
    (hclient : env.Client = .ok store) (hfetch : store.Info a = .ok T)
    (hov : parsedFlags env c args = ov)
    (hp : ov.policies = []) (hn : ov.roleNames = []) (hi : ov.roleIDs = []) :
    ∃ record, submitted (Run env c args).trace = [record] ∧
      record.Policies = T.Policies ∧ record.Roles = T.Roles := by
  refine ⟨_, submitted_of_fetch env c args a store T hparse hclient hfetch, ?_⟩
  rw [hov]
  simp only [updatedFields, hp, hn, hi]
  constructor <;> repeat' split
  all_goals simp_all

/-- C4 at the run `-name=deploy -type=management a1` of a new command. -/
theorem lists_kept_witness :
    ∃ record,
      submitted (Run sampleEnv newCommand ["-name=deploy", "-type=management", "a1"]).trace
        = [record] ∧
      record.Policies = sampleToken.Policies ∧ record.Roles = sampleToken.Roles :=
  lists_kept sampleEnv newCommand ["-name=deploy", "-type=management", "a1"] "a1"
    sampleStore sampleToken ⟨"deploy", "management", [], [], []⟩ (by decide) rfl (by decide)
    (by decide) rfl rfl rfl

/-- C5: for every fetched token `T` and every set of supplied values, the
submitted record has the `AccessorID` and the `SecretID` of `T`. -/
theorem identifiers_kept (env : Env) (c : ACLTokenUpdateCommand) (args : List String)
    (a : String) (store : ACLTokens) (T : ACLToken)
    (hparse : (env.Parse args).result = .ok [a])
    (hclient : env.Client = .ok store) (hfetch : store.Info a = .ok T) :
    ∃ record, submitted (Run env c args).trace = [record] ∧
      record.AccessorID = T.AccessorID ∧ record.SecretID = T.SecretID := by
  refine ⟨_, submitted_of_fetch env c args a store T hparse hclient hfetch, ?_⟩
  simp only [updatedFields]
  constructor <;> repeat' split
  all_goals simp

/-- C5 at a run of a new command that supplies every option. -/
theorem identifiers_kept_witness :
    ∃ record,
      submitted (Run sampleEnv newCommand
        ["-name=deploy", "-type=client", "-policy=p2", "-role-name=dev", "-role-id=r7",
          "a1"]).trace = [record] ∧
      record.AccessorID = sampleToken.AccessorID ∧ record.SecretID = sampleToken.SecretID :=
  identifiers_kept sampleEnv newCommand
    ["-name=deploy", "-type=client", "-policy=p2", "-role-name=dev", "-role-id=r7", "a1"]
    "a1" sampleStore sampleToken (by decide) rfl (by decide)

/-- C6: for every fetched token `T`, when nothing is supplied (empty name,
empty type, empty policy, role name and role ID lists), the one record
submitted to the store is `T` itself, equal in every field. -/
theorem nothing_supplied (env : Env) (c : ACLTokenUpdateCommand) (args : List String)
    (a : String) (store : ACLTokens) (T : ACLToken)
    (hparse : (env.Parse args).result = .ok [a])
    (hclient : env.Client = .ok store) (hfetch : store.Info a = .ok T)
    (hov : parsedFlags env c args = ⟨"", "", [], [], []⟩) :
    submitted (Run env c args).trace = [T] := by
  rw [submitted_of_fetch env c args a store T hparse hclient hfetch, hov]
  simp [updatedFields]

/-- C6 at the run `a1` of a new command. -/
theorem nothing_supplied_witness :
    submitted (Run sampleEnv newCommand ["a1"]).trace = [sampleToken] :=
  nothing_supplied sampleEnv newCommand ["a1"] "a1" sampleStore sampleToken
    (by decide) rfl (by decide) (by decide)

/-! ## The calls to the store and the exit status -/

theorem storeCalls_append (l₁ l₂ : List Event) :
    storeCalls (l₁ ++ l₂) = storeCalls l₁ ++ storeCalls l₂ := by
  induction l₁ with
  | nil => rfl
  | cons e l ih => cases e <;> simp [storeCalls, ih]

theorem storeCalls_usageOutput (env : Env) (cs : List FlagCall) :
    storeCalls (usageOutput env cs) = [] := by
  induction cs with
  | nil => rfl
  | cons k l ih => cases k <;> simp [usageOutput, storeCalls, ih]

/-- C7: in every run `Info` is called at most once and `Update` at most once;
an `Update` call comes second, right after an `Info` call that returned a
token; a failed `Info` is followed by no `Update`; a successful `Info` is
followed by exactly one `Update`; and when the number of positional arguments
is not one, neither is called. -/
theorem store_calls (env : Env) (c : ACLTokenUpdateCommand) (args : List String) :
    ((fetches (Run env c args).trace).length ≤ 1 ∧
      (submitted (Run env c args).trace).length ≤ 1) ∧
    (∀ record, record ∈ submitted (Run env c args).trace →
      ∃ a store T, env.Client = .ok store ∧ store.Info a = .ok T ∧
        storeCalls (Run env c args).trace = [.info a, .update record]) ∧
    (∀ a store err, env.Client = .ok store → a ∈ fetches (Run env c args).trace →
      store.Info a = .error err →
        storeCalls (Run env c args).trace = [.info a]) ∧
    (∀ a store T, env.Client = .ok store → a ∈ fetches (Run env c args).trace →
      store.Info a = .ok T →
        (submitted (Run env c args).trace).length = 1) ∧
    (∀ rest, (env.Parse args).result = .ok rest → rest.length ≠ 1 →
      fetches (Run env c args).trace = [] ∧ submitted (Run env c args).trace = []) := by
  unfold Run
  simp only
  split
  · simp [fetches_usageOutput, submitted_usageOutput]
  · split
    · simp [fetches_append, submitted_append, fetches_usageOutput, submitted_usageOutput,
        fetches, submitted]
    · split
      · simp [fetches_append, submitted_append, storeCalls_append, fetches_usageOutput,
          submitted_usageOutput, storeCalls_usageOutput, fetches, submitted, storeCalls]
        rename_i a _ _ client hclient _ err hfetch
        refine ⟨fun b store err hs hb _ => hb.symm, fun b store T hs hb hT => ?_,
          fun rest h => ?_⟩
        · rw [hclient] at hs
          cases hs
          rw [hb, hfetch] at hT
          cases hT
        · simp_all
      · split
        all_goals
          simp [fetches_append, submitted_append, storeCalls_append, fetches_usageOutput,
            submitted_usageOutput, storeCalls_usageOutput, fetches, submitted, storeCalls]
          rename_i a _ _ client hclient _ T hfetch _ _ _
          refine ⟨⟨a, client, hclient, ⟨T, hfetch⟩, rfl⟩, fun b store err hs hb he => ?_,
            fun rest h => ?_⟩
          · rw [hclient] at hs
            cases hs
            rw [hb, hfetch] at he
            cases he
          · simp_all
  · simp [fetches_append, submitted_append, fetches_usageOutput, submitted_usageOutput,
      fetches, submitted]

/-- C7 at three runs on the sample store: a run that fetches and updates, a
run whose fetch fails, and a run with two positional arguments. -/
theorem store_calls_witness :
    storeCalls (Run sampleEnv newCommand ["-name=deploy", "a1"]).trace =
        [.info "a1", .update { sampleToken with Name := "deploy" }] ∧
      storeCalls (Run sampleEnv newCommand ["-name=deploy", "a2"]).trace = [.info "a2"] ∧
      (fetches (Run sampleEnv newCommand ["a1", "a2"]).trace = [] ∧
        submitted (Run sampleEnv newCommand ["a1", "a2"]).trace = []) :=
  ⟨by decide, by decide,
    (store_calls sampleEnv newCommand ["a1", "a2"]).2.2.2.2 ["a1", "a2"] (by decide)
      (by decide)⟩

/-- C8: `Run` returns 0 exactly when flag parsing succeeds and leaves one
positional argument, the client is built, `Info` returns a token and `Update`
of the overwritten record returns a token; in every other case it returns 1. -/
theorem exit_status (env : Env) (c : ACLTokenUpdateCommand) (args : List String) :
    ((Run env c args).code = 0 ↔
      ∃ a store T U, (env.Parse args).result = .ok [a] ∧ env.Client = .ok store ∧
        store.Info a = .ok T ∧
        store.Update (updatedFields env (parsedFlags env c args) T) = .ok U) ∧
    ((Run env c args).code ≠ 0 → (Run env c args).code = 1) := by
  unfold Run
  simp only
  split
  · simp_all
  · rename_i a hparse
    split
    · simp_all
    · rename_i client hclient
      split
      · rename_i err hfetch
        simp only [hparse, hclient]
        simp
        intro T hT
        rw [hfetch] at hT
        cases hT
      · rename_i T hfetch
        split
        · rename_i err hupdate
          simp only [hparse, hclient]
          simp
          intro T' hT U hU
          rw [hfetch] at hT
          cases hT
          rw [hupdate] at hU
          cases hU
        · rename_i U hupdate
          simp only [hparse, hclient]
          simp
          exact ⟨T, hfetch, U, hupdate⟩
  · rename_i rest hne hrest
    simp only [hrest]
    simp
    intro a h
    exact absurd h (hne a)

/-- C8 at five runs: success, two positional arguments, no positional
argument, a fetch error, and an update the store rejects. -/
theorem exit_status_witness :
    (Run sampleEnv newCommand ["-name=deploy", "a1"]).code = 0 ∧
      (Run sampleEnv newCommand ["a1", "a2"]).code = 1 ∧
      (Run sampleEnv newCommand ["-name=deploy"]).code = 1 ∧
      (Run sampleEnv newCommand ["a2"]).code = 1 ∧
      (Run sampleEnv newCommand ["-type=admin", "a1"]).code = 1 ∧
      (Run noClientEnv newCommand ["a1"]).code = 1 :=
  ⟨((exit_status sampleEnv newCommand ["-name=deploy", "a1"]).1).2
      ⟨"a1", sampleStore, sampleToken, { sampleToken with Name := "deploy", Rest := "index=8" },
        by decide, rfl, by decide, by decide⟩,
    by decide, by decide, by decide, by decide, by decide⟩

/-- C9: in every run that returns 0, exactly one token is handed to
`outputACLToken`, and it is the token the store's `Update` returned for the
submitted record, not the submitted record. -/
theorem store_answer_displayed (env : Env) (c : ACLTokenUpdateCommand) (args : List String)
    (h : (Run env c args).code = 0) :
    ∃ store record U, env.Client = .ok store ∧
      submitted (Run env c args).trace = [record] ∧
      store.Update record = .ok U ∧
      displayed (Run env c args).trace = [U] := by
  revert h
  unfold Run
  simp only
  split
  · simp
  · split
    · simp
    · rename_i client hclient
      split
      · simp
      · split
        · simp
        · rename_i U hupdate
          intro _
          refine ⟨client, _, U, hclient, ?_, hupdate, ?_⟩
          · simp [submitted_append, submitted_usageOutput, submitted]
          · simp [displayed_append, displayed_usageOutput, displayed]
  · simp

/-- C9 at the run `-name=deploy a1`: the sample store answers with a record
whose `Rest` differs from the submitted one, and that answer is displayed. -/
theorem store_answer_displayed_witness :
    (∃ store record U, sampleEnv.Client = .ok store ∧
      submitted (Run sampleEnv newCommand ["-name=deploy", "a1"]).trace = [record] ∧
      store.Update record = .ok U ∧
      displayed (Run sampleEnv newCommand ["-name=deploy", "a1"]).trace = [U]) ∧
    submitted (Run sampleEnv newCommand ["-name=deploy", "a1"]).trace =
      [{ sampleToken with Name := "deploy" }] ∧
    displayed (Run sampleEnv newCommand ["-name=deploy", "a1"]).trace =
      [{ sampleToken with Name := "deploy", Rest := "index=8" }] :=
  ⟨store_answer_displayed sampleEnv newCommand ["-name=deploy", "a1"] (by decide),
    by decide, by decide⟩

/-! ## The role lists across calls -/

theorem foldl_applyFlag_roles (cs : List FlagCall) (st : Flags) :
    (cs.foldl applyFlag st).roleNames = st.roleNames ++ roleNameValues cs ∧
      (cs.foldl applyFlag st).roleIDs = st.roleIDs ++ roleIDValues cs := by
  induction cs generalizing st with
  | nil => simp [roleNameValues, roleIDValues]
  | cons k l ih =>
    cases k <;> simp [List.foldl_cons, applyFlag, roleNameValues, roleIDValues, ih]

/-- The role lists consulted at line 138 are the lists the command value held
when `Run` was entered followed by the values of this call's `-role-name` and
`-role-id` options; for a command value that holds none they are this
call's values. -/
theorem parsedFlags_roles (env : Env) (c : ACLTokenUpdateCommand) (args : List String) :
    (parsedFlags env c args).roleNames =
        c.roleNames ++ roleNameValues (env.Parse args).calls ∧
      (parsedFlags env c args).roleIDs =
        c.roleIDs ++ roleIDValues (env.Parse args).calls :=
  foldl_applyFlag_roles (env.Parse args).calls (initialFlags c)

/-- The command value after any call of `Run`, whatever its status, holds the
role lists of line 138: nothing empties them. -/
theorem Run_cmd (env : Env) (c : ACLTokenUpdateCommand) (args : List String) :
    (Run env c args).cmd =
      { roleNames := c.roleNames ++ roleNameValues (env.Parse args).calls,
        roleIDs := c.roleIDs ++ roleIDValues (env.Parse args).calls } := by
  have h := parsedFlags_roles env c args
  unfold Run
  simp only
  split
  · simp [h.1, h.2]
  · split
    · simp [h.1, h.2]
    · split
      · simp [h.1, h.2]
      · split <;> simp [h.1, h.2]
  · simp [h.1, h.2]

/-- C10, evaluated: after the call `-role-name=dev a1` on a new command, the
command value still holds the role name `dev`.  A second call `-role-id=r7 a1`
on the same value, whose arguments carry no `-role-name`, submits the roles
built from `dev` and `r7` and not those built from `r7` alone; a second call
`-name=deploy a1`, whose arguments carry no role option at all, replaces the
token's roles by the link to `dev`, where the same call on a new command
leaves them as fetched. -/
theorem second_call_uses_first_call_roles :
    (Run sampleEnv newCommand ["-role-name=dev", "a1"]).cmd =
        { roleNames := ["dev"], roleIDs := [] } ∧
      (roleNameValues (sampleEnv.Parse ["-role-id=r7", "a1"]).calls = [] ∧
        roleIDValues (sampleEnv.Parse ["-role-id=r7", "a1"]).calls = ["r7"]) ∧
      submitted (Run sampleEnv (Run sampleEnv newCommand ["-role-name=dev", "a1"]).cmd
          ["-role-id=r7", "a1"]).trace =
        [{ sampleToken with Roles := [{ ID := "", Name := "dev" }, { ID := "r7", Name := "" }] }] ∧
      submitted (Run sampleEnv newCommand ["-role-id=r7", "a1"]).trace =
        [{ sampleToken with Roles := [{ ID := "r7", Name := "" }] }] ∧
      (roleNameValues (sampleEnv.Parse ["-name=deploy", "a1"]).calls = [] ∧
        roleIDValues (sampleEnv.Parse ["-name=deploy", "a1"]).calls = []) ∧
      submitted (Run sampleEnv (Run sampleEnv newCommand ["-role-name=dev", "a1"]).cmd
          ["-name=deploy", "a1"]).trace =
        [{ sampleToken with Name := "deploy", Roles := [{ ID := "", Name := "dev" }] }] ∧
      submitted (Run sampleEnv newCommand ["-name=deploy", "a1"]).trace =
        [{ sampleToken with Name := "deploy" }] := by
  decide

end Nomad.Command
